import Mathlib

/-!
Verification of the catberry-l10n localization core: a shallow embedding of
the merge, lookup and pluralization logic of lib/LocalizationLoader.js
(the class-based snapshot) and lib/LocalizationProvider.js, together with
theorems settling the specification claims.

Modelling conventions:
  - JavaScript dictionary objects are association lists with unique keys;
    property read is objGet (first match), property assignment is dictSet.
    The reserved property named with a dollar sign and the word
    pluralization, which the loader attaches to every cached dictionary,
    is modelled as the separate field LocaleObject.pluralization, since
    every consumer special-cases it; data keys are assumed not to use that
    reserved name.
  - Plural rule expression strings, which the provider turns into
    functions with dynamic code construction, are deep-embedded as the
    Expr type covering exactly the grammar the rule table uses: integer
    literals, the count variable n, modulo, comparisons, logical and/or
    and the ternary conditional. Evaluation follows JavaScript semantics
    on integer inputs (truncated remainder, booleans coerced to 0/1,
    logical operators returning an operand). Modulo by zero, which is NaN
    in JavaScript, never occurs in the rule table and is out of model.
  - Counts are integers; the claims only involve integer counts.
  - toLowerCase is modelled on the ASCII range, which is exact for every
    input the locale grammar can accept.
-/

deriving instance DecidableEq for Except

namespace CatberryL10n

/-- A value stored under a localization key: a plain string or a plural-form array. -/
inductive Value where
  | str (s : String)
  | arr (forms : List String)
deriving DecidableEq, Repr

/-- A raw or combined localization dictionary: key-value association list. -/
abbrev Dict := List (String × Value)

/-- JavaScript object property read: the first binding for the key. -/
def objGet {α : Type} : List (String × α) → String → Option α
  | [], _ => none
  | kv :: rest, k => if kv.1 = k then some kv.2 else objGet rest k

/-- The key list of an association list. -/
def keys {α : Type} (l : List (String × α)) : List String :=
  l.map Prod.fst

/-- JavaScript object property assignment on a unique-keyed object:
replace the binding in place if present, append otherwise. -/
def dictSet : Dict → String → Value → Dict
  | [], k, v => [(k, v)]
  | kv :: rest, k, v => if kv.1 = k then (k, v) :: rest else kv :: dictSet rest k v

/-- Keys of a dictionary whose value is a plural-form array, in key order.
This is what the first loop of mergeLocalizations collects into fromDefault. -/
def arrayKeys : Dict → List String
  | [] => []
  | (k, Value.arr _) :: rest => k :: arrayKeys rest
  | _ :: rest => arrayKeys rest

/-- One step of the second loop of mergeLocalizations: assign the key from the
extending dictionary and delete it from the fromDefault bookkeeping set. -/
def mergeStep (acc : Dict × List String) (kv : String × Value) : Dict × List String :=
  (dictSet acc.1 kv.1 kv.2, acc.2.erase kv.1)

/-- mergeLocalizations from lib/LocalizationHelper.js (lines 1232-1254).
The first loop copies every key of the base (default-locale) dictionary into a
fresh result, marking array-valued keys in fromDefault: on a unique-keyed
object this yields the base itself with arrayKeys as the marks. The second
loop assigns every key of the extending dictionary over it, deleting the key
from fromDefault. A base that is undefined (the default locale has no
combined dictionary) is skipped, leaving the empty start. The function
returns the merged dictionary together with the final fromDefault key set. -/
def mergeLocalizations (base : Option Dict) (extend_ : Dict) : Dict × List String :=
  let start := match base with
    | some b => (b, arrayKeys b)
    | none => ([], [])
  extend_.foldl mergeStep start

/-- A plural rule expression over the single free variable n: the fixed
grammar used by the built-in rule table. -/
inductive Expr where
  | num (k : Int)
  | var
  | mod (a b : Expr)
  | eq (a b : Expr)
  | ne (a b : Expr)
  | lt (a b : Expr)
  | le (a b : Expr)
  | gt (a b : Expr)
  | ge (a b : Expr)
  | and (a b : Expr)
  | or (a b : Expr)
  | cond (c t e2 : Expr)
deriving DecidableEq, Repr

/-- A JavaScript value produced by evaluating a rule expression on an
integer count: a number or a boolean. -/
inductive JsVal where
  | num (k : Int)
  | bool (b : Bool)
deriving DecidableEq, Repr

/-- JavaScript ToNumber on the rule-expression value domain. -/
def toNumber : JsVal → Int
  | JsVal.num k => k
  | JsVal.bool b => if b then 1 else 0

/-- JavaScript ToBoolean on the rule-expression value domain
(integer zero is falsy; NaN cannot arise on this grammar with nonzero moduli). -/
def toBool : JsVal → Bool
  | JsVal.num k => k != 0
  | JsVal.bool b => b

/-- Evaluation of a rule expression with n bound to the count, following
JavaScript semantics: the percent operator is the truncated remainder,
comparisons yield booleans, the logical operators return the deciding
operand, the ternary branches on truthiness. -/
def evalExpr (e2 : Expr) (n : Int) : JsVal :=
  match e2 with
  | Expr.num k => JsVal.num k
  | Expr.var => JsVal.num n
  | Expr.mod a b => JsVal.num (Int.tmod (toNumber (evalExpr a n)) (toNumber (evalExpr b n)))
  | Expr.eq a b => JsVal.bool (toNumber (evalExpr a n) == toNumber (evalExpr b n))
  | Expr.ne a b => JsVal.bool (toNumber (evalExpr a n) != toNumber (evalExpr b n))
  | Expr.lt a b => JsVal.bool (decide (toNumber (evalExpr a n) < toNumber (evalExpr b n)))
  | Expr.le a b => JsVal.bool (decide (toNumber (evalExpr a n) ≤ toNumber (evalExpr b n)))
  | Expr.gt a b => JsVal.bool (decide (toNumber (evalExpr b n) < toNumber (evalExpr a n)))
  | Expr.ge a b => JsVal.bool (decide (toNumber (evalExpr b n) ≤ toNumber (evalExpr a n)))
  | Expr.and a b => let va := evalExpr a n; if toBool va then evalExpr b n else va
  | Expr.or a b => let va := evalExpr a n; if toBool va then va else evalExpr b n
  | Expr.cond c t e3 => if toBool (evalExpr c n) then evalExpr t n else evalExpr e3 n

/-- The Russian pluralization rule from the built-in rule table, as an
expression tree. The source string is
(n%10==1 && n%100!=11 ? 0 : n%10>=2 && n%10<=4 && (n%100<10||n%100>=20) ? 1 : 2). -/
def russianRule : Expr :=
  Expr.cond
    (Expr.and (Expr.eq (Expr.mod Expr.var (Expr.num 10)) (Expr.num 1))
              (Expr.ne (Expr.mod Expr.var (Expr.num 100)) (Expr.num 11)))
    (Expr.num 0)
    (Expr.cond
      (Expr.and
        (Expr.and (Expr.ge (Expr.mod Expr.var (Expr.num 10)) (Expr.num 2))
                  (Expr.le (Expr.mod Expr.var (Expr.num 10)) (Expr.num 4)))
        (Expr.or (Expr.lt (Expr.mod Expr.var (Expr.num 100)) (Expr.num 10))
                 (Expr.ge (Expr.mod Expr.var (Expr.num 100)) (Expr.num 20))))
      (Expr.num 1) (Expr.num 2))

/-- The pluralization descriptor attached by the loader to every cached
dictionary: the rule of the dictionary locale; for a non-default locale
also the rule of the default locale and the set of keys whose plural-form
array came from the default locale (fromDefaultLocale); the latter two are
undefined (none) on the default locale itself. -/
structure Pluralization where
  rule : Expr
  defaultRule : Option Expr
  fromDefaultLocale : Option (List String)
deriving DecidableEq, Repr

/-- A cached locale dictionary as served by the loader: the data entries
plus the optional pluralization descriptor. The bare empty object returned
before initialization carries no descriptor. -/
structure LocaleObject where
  entries : Dict
  pluralization : Option Pluralization
deriving DecidableEq, Repr

/-- The empty object the loader returns when nothing is cached. -/
def emptyLocaleObject : LocaleObject := ⟨[], none⟩

/-- An error surfaced synchronously by the lookup path: the invalid locale
name error thrown by load for malformed input, and the JavaScript type
error that would arise from reading the pluralization descriptor of a
dictionary that has none (unreachable from cached states). -/
inductive JsError where
  | invalidLocaleName
  | typeError
deriving DecidableEq, Repr

/-- ASCII lowercasing of one character, the fragment of toLowerCase the
locale grammar can observe (code points 65 to 90 shift up by 32). -/
def asciiToLower (c : Char) : Char :=
  if 65 ≤ c.toNat ∧ c.toNat ≤ 90 then Char.ofNat (c.toNat + 32) else c

/-- String lowercasing, character by character. -/
def jsToLower (s : String) : String :=
  String.mk (s.data.map asciiToLower)

/-- Whether a character is an ASCII lowercase letter (code 97 to 122). -/
def isLowerAZ (c : Char) : Bool :=
  decide (97 ≤ c.toNat ∧ c.toNat ≤ 122)

/-- The locale name grammar: two lowercase letters, optionally followed by
a dash (code 45) and two more lowercase letters. -/
def isValidLocale (s : String) : Bool :=
  match s.data with
  | [a, b] => isLowerAZ a && isLowerAZ b
  | [a, b, h, c, d] => isLowerAZ a && isLowerAZ b && h.toNat == 45 && isLowerAZ c && isLowerAZ d
  | _ => false

/-- The characters before the first dash (code 45), or all of them if none. -/
def takeUntilDash : List Char → List Char
  | [] => []
  | c :: rest => if c.toNat = 45 then [] else c :: takeUntilDash rest

/-- Whether a dash occurs anywhere in the character list. -/
def hasDash (l : List Char) : Bool :=
  l.any fun c => c.toNat == 45

/-- Whether the first dash of the string sits at a positive index: a dash
exists and the first character is not one. This is the indexOf test of
the rule lookup. -/
def dashAtPositiveIndex (l : List Char) : Bool :=
  match l with
  | [] => false
  | c :: rest => c.toNat != 45 && hasDash rest

/-- The text before the first dash, or the whole string if it has none:
element zero of the JavaScript split on the dash. -/
def firstLocaleComponent (locale : String) : String :=
  String.mk (takeUntilDash locale.data)

/-- Locale normalization performed at the top of load: an empty argument is
replaced by the default locale, then the result is lowercased. -/
def normalizeLocale (defaultLocale locale : String) : String :=
  jsToLower (if locale = "" then defaultLocale else locale)

/-- The observable state of the loader and provider pair: the committed
per-locale dictionary cache, the configured default locale, and the
placeholder flag of the provider. -/
structure ProviderState where
  cache : List (String × LocaleObject)
  defaultLocale : String
  placeholder : Bool
deriving DecidableEq, Repr

/-- LocalizationLoader.load (lib/LocalizationHelper.js lines 799-821):
substitute the default for an empty argument, lowercase, reject malformed
names, then serve the exact locale from the cache, else the primary
subtag when the name has one, else the default locale entry, else the
empty object. -/
def load (st : ProviderState) (locale : String) : Except JsError LocaleObject :=
  let l := normalizeLocale st.defaultLocale locale
  if isValidLocale l = false then Except.error JsError.invalidLocaleName
  else
    match objGet st.cache l with
    | some obj => Except.ok obj
    | none =>
      let first := firstLocaleComponent l
      if first ≠ l then
        match objGet st.cache first with
        | some obj => Except.ok obj
        | none => Except.ok ((objGet st.cache st.defaultLocale).getD emptyLocaleObject)
      else Except.ok ((objGet st.cache st.defaultLocale).getD emptyLocaleObject)

/-- LocalizationProvider._notFound: the configured missing-value policy,
the literal key with the placeholder flag on and the empty string with it off. -/
def notFound (placeholder : Bool) (key : String) : String :=
  if placeholder then key else ""

/-- JavaScript String(value || fallback) for a value that is undefined or a
string and a string fallback: the value unless it is absent or empty. -/
def jsStringOr (v : Option String) (fallback : String) : String :=
  match v with
  | some s => if s = "" then fallback else s
  | none => fallback

/-- LocalizationProvider.get (lib/LocalizationProvider.js lines 97-104):
load the dictionary, read the key, take the first element of an array
value, and fall back to the missing-value policy on a falsy result. -/
def get (st : ProviderState) (locale key : String) : Except JsError String :=
  (load st locale).map fun obj =>
    let value : Option String :=
      match objGet obj.entries key with
      | some (Value.arr forms) => forms.head?
      | some (Value.str s) => some s
      | none => none
    jsStringOr value (notFound st.placeholder key)

/-- The rule pluralize selects: the default-locale rule when the descriptor
carries a fromDefaultLocale set containing the key, the dictionary rule
otherwise. The selected rule can be absent only when defaultRule is. -/
def chosenRule (p : Pluralization) (key : String) : Option Expr :=
  match p.fromDefaultLocale with
  | some fromDefault => if key ∈ fromDefault then p.defaultRule else some p.rule
  | none => some p.rule

/-- The index the compiled rule function computes: Number applied to the
evaluated expression; an absent rule behaves as Number of nothing, zero. -/
def ruleIndex (rule : Option Expr) (n : Int) : Int :=
  match rule with
  | some e2 => toNumber (evalExpr e2 n)
  | none => 0

/-- String(pluralForms[index]) of the compiled rule function: the form at
the index, or the text undefined when the index is out of range. -/
def selectForm (forms : List String) (index : Int) : String :=
  if 0 ≤ index then
    match forms[index.toNat]? with
    | some s => s
    | none => "undefined"
  else "undefined"

/-- JavaScript truthiness of a dictionary read: absent keys and empty
strings are falsy, every array (even empty) is truthy. -/
def isFalsyValue : Option Value → Bool
  | none => true
  | some (Value.str s) => s = ""
  | some (Value.arr _) => false

/-- LocalizationProvider.pluralize (lib/LocalizationProvider.js lines
129-150): load the dictionary and read the key; return the key at once for
a falsy value under the placeholder flag; treat a non-array value like
get; for an array select the rule by fromDefaultLocale membership,
evaluate it on the count, and map a selection that stringifies to the text
undefined to the missing-value policy. -/
def pluralize (st : ProviderState) (locale key : String) (n : Int) : Except JsError String :=
  match load st locale with
  | Except.error e2 => Except.error e2
  | Except.ok localeObject =>
    let forms := objGet localeObject.entries key
    if isFalsyValue forms && st.placeholder then Except.ok key
    else
      match forms with
      | some (Value.arr fs) =>
        match localeObject.pluralization with
        | none => Except.error JsError.typeError
        | some p =>
          let form := selectForm fs (ruleIndex (chosenRule p key) n)
          Except.ok (if form = "undefined" then notFound st.placeholder key else form)
      | some (Value.str s) => Except.ok (jsStringOr (some s) (notFound st.placeholder key))
      | none => Except.ok (jsStringOr none (notFound st.placeholder key))

/-- LocalizationLoader._getPluralizationRule (lines 955-970): the rule of
the exact locale from the rule table, else of the text before the dash
when the dash sits at a positive index, else the constant zero rule. -/
def getPluralizationRule (pmap : List (String × Expr)) (locale : String) : Expr :=
  match objGet pmap locale with
  | some r => r
  | none =>
    if dashAtPositiveIndex locale.data then
      (objGet pmap (firstLocaleComponent locale)).getD (Expr.num 0)
    else Expr.num 0

/-- The per-locale step of LocalizationLoader._prepareCache (lines
985-1002): a non-default locale is merged over the default-locale combined
dictionary and receives the three-field descriptor with the merge
provenance; the default locale keeps its combined dictionary and receives
the one-field descriptor. -/
def mkLocaleObject (pmap : List (String × Expr)) (defaultLocale : String)
    (defaultDict : Option Dict) (defaultRule : Expr)
    (locale : String) (dict : Dict) : LocaleObject :=
  if locale ≠ defaultLocale then
    let m := mergeLocalizations defaultDict dict
    ⟨m.1, some ⟨getPluralizationRule pmap locale, some defaultRule, some m.2⟩⟩
  else
    ⟨dict, some ⟨getPluralizationRule pmap locale, none, none⟩⟩

/-- LocalizationLoader._prepareCache (lines 977-1007): rebuild the whole
object cache from the freshly combined per-locale dictionaries. The base
dictionary of every merge is the original combined entry of the default
locale, which is never itself merged. -/
def prepareCache (pmap : List (String × Expr)) (defaultLocale : String)
    (locs : List (String × Dict)) : List (String × LocaleObject) :=
  let defaultRule := getPluralizationRule pmap defaultLocale
  let defaultDict := objGet locs defaultLocale
  locs.map fun kv => (kv.1, mkLocaleObject pmap defaultLocale defaultDict defaultRule kv.1 kv.2)

/-- LocalizationLoader._init (lines 901-911) around a rebuild: prepareCache
commits the freshly built cache unconditionally, and only then is the
default-locale entry checked; the boolean reports whether the loaded event
(true) or the fatal missing-default error (false) is emitted. -/
def initStep (pmap : List (String × Expr)) (locs : List (String × Dict))
    (st : ProviderState) : ProviderState × Bool :=
  let newCache := prepareCache pmap st.defaultLocale locs
  ({ st with cache := newCache }, (objGet newCache st.defaultLocale).isSome)

/-! Concrete states used by the claim witnesses and counterexamples. -/

/-- The committed state of claim C5: the Russian rule attached to the
default locale ru whose dictionary maps APPLE to the three plural forms. -/
def c5State : ProviderState :=
  ⟨prepareCache [("ru", russianRule)] "ru"
      [("ru", [("APPLE", Value.arr ["яблоко", "яблока", "яблок"])])],
    "ru", false⟩

/-- The freshly constructed loader state before any rebuild: the object
cache starts out empty. -/
def c7UninitState : ProviderState := ⟨[], "en", false⟩

/-- A committed state before the failing rebuild of claim C1: the default
locale ru serves a dictionary with one key. -/
def c1Before : ProviderState :=
  ⟨[("ru", ⟨[("GREETING", Value.str "привет")], some ⟨Expr.num 0, none, none⟩⟩)],
    "ru", false⟩

/-- The rebuild input of claim C1: it has no dictionary for the default
locale ru. -/
def c1NewInput : List (String × Dict) := [("en", [("FIRST", Value.str "en first")])]

/-- The committed en dictionary of the witness state for claim C4. -/
def c4EnObject : LocaleObject :=
  ⟨[("FIRST", Value.str "en first")], some ⟨Expr.num 0, some (Expr.num 0), some []⟩⟩

/-- The committed default ru dictionary of the witness state for claim C4. -/
def c4RuObject : LocaleObject :=
  ⟨[("THIRD", Value.str "ru third")], some ⟨Expr.num 0, none, none⟩⟩

/-- The witness state for claim C4: only en and the default ru are merged. -/
def c4State : ProviderState :=
  ⟨[("en", c4EnObject), ("ru", c4RuObject)], "ru", false⟩

/-- The raw combined dictionaries of the claim C2 witness: the default ru
defines THIRD, the en sources do not. -/
def c2Locs : List (String × Dict) :=
  [("ru", [("THIRD", Value.str "ru third")]),
   ("en", [("FIRST", Value.str "en first")])]

/-- The raw combined dictionaries of the claim C3 witness: ru (default)
defines the plural key APPLE and en overrides the plural key DAY. -/
def c3Locs : List (String × Dict) :=
  [("ru", [("APPLE", Value.arr ["яблоко", "яблока", "яблок"]),
           ("DAY", Value.arr ["день", "дня", "дней"])]),
   ("en", [("DAY", Value.arr ["day", "days"])])]

/-- The rule table of the claim C3 witness: ru has the Russian rule, en
the English two-form rule written as a comparison. -/
def c3Pmap : List (String × Expr) :=
  [("ru", russianRule), ("en", Expr.ne Expr.var (Expr.num 1))]

/-- The en dictionary of the claim C8 and C10 witness states: one plural
key with two forms under a rule that returns the count itself, and one
plural key whose only form is the literal text undefined. -/
def c8EnObject : LocaleObject :=
  ⟨[("FORMS2", Value.arr ["form one", "form two"]),
    ("UNDEF", Value.arr ["undefined"])],
    some ⟨Expr.var, none, none⟩⟩

/-- The claim C8 witness state with the placeholder flag off. -/
def c8StateOff : ProviderState := ⟨[("en", c8EnObject)], "en", false⟩

/-- The claim C8 witness state with the placeholder flag on. -/
def c8StateOn : ProviderState := ⟨[("en", c8EnObject)], "en", true⟩

/-- The committed state of the claim C9 counterexample: the placeholder
flag is on and the default en dictionary maps the key A to a plural-form
array whose only form is the empty string, under the constant zero rule. -/
def c9State : ProviderState :=
  ⟨prepareCache [] "en" [("en", [("A", Value.arr [""])])], "en", true⟩


/-! Association-list lemmas for JavaScript object reads and writes. -/

theorem objGet_map {α β : Type} (l : List (String × α)) (f : String → α → β) (k : String) :
    objGet (l.map fun kv => (kv.1, f kv.1 kv.2)) k = (objGet l k).map (f k) := by
  induction l with
  | nil => rfl
  | cons kv rest ih =>
    by_cases h : kv.1 = k <;> simp [objGet, h, ih]

theorem objGet_eq_none_iff {α : Type} (l : List (String × α)) (k : String) :
    objGet l k = none ↔ k ∉ keys l := by
  induction l with
  | nil => simp [objGet, keys]
  | cons kv rest ih =>
    by_cases h : kv.1 = k
    · subst h
      simp [objGet, keys]
    · have h2 : ¬(k = kv.1) := fun hc => h hc.symm
      simp [objGet, keys, h, h2, ih]

theorem dictSet_objGet (d : Dict) (k k2 : String) (v : Value) :
    objGet (dictSet d k v) k2 = if k = k2 then some v else objGet d k2 := by
  induction d with
  | nil =>
    by_cases h : k = k2 <;> simp [dictSet, objGet, h]
  | cons kv rest ih =>
    by_cases h : kv.1 = k
    · subst h
      by_cases h2 : kv.1 = k2 <;> simp [dictSet, objGet, h2]
    · by_cases h2 : kv.1 = k2
      · subst h2
        have hk : ¬(k = kv.1) := fun hc => h hc.symm
        simp [dictSet, objGet, h, hk]
      · simp [dictSet, objGet, h, h2, ih]

theorem foldl_mergeStep_fst (extend_ : Dict) (acc : Dict × List String) (k : String)
    (h : (keys extend_).Nodup) :
    objGet (extend_.foldl mergeStep acc).1 k =
      match objGet extend_ k with
      | some v => some v
      | none => objGet acc.1 k := by
  induction extend_ generalizing acc with
  | nil => simp [objGet]
  | cons kv rest ih =>
    simp only [keys, List.map_cons, List.nodup_cons] at h
    by_cases hk : kv.1 = k
    · subst hk
      have hnone : objGet rest kv.1 = none :=
        (objGet_eq_none_iff rest kv.1).2 h.1
      simp only [List.foldl_cons, ih _ h.2, hnone, objGet, if_pos rfl]
      simp [mergeStep, dictSet_objGet]
    · simp only [List.foldl_cons, ih _ h.2, objGet, if_neg hk]
      cases hrest : objGet rest k with
      | some v => simp
      | none =>
        have hne : ¬(kv.1 = k) := hk
        simp [mergeStep, dictSet_objGet, hne]

theorem foldl_mergeStep_snd (extend_ : Dict) (acc : Dict × List String) (k : String)
    (h : acc.2.Nodup) :
    k ∈ (extend_.foldl mergeStep acc).2 ↔ k ∈ acc.2 ∧ k ∉ keys extend_ := by
  induction extend_ generalizing acc with
  | nil => simp [keys]
  | cons kv rest ih =>
    have herase : (acc.2.erase kv.1).Nodup := h.erase kv.1
    have step := ih (mergeStep acc kv) herase
    simp only [List.foldl_cons]
    rw [step]
    simp only [mergeStep]
    rw [h.mem_erase_iff]
    simp only [keys, List.map_cons, List.mem_cons]
    tauto

theorem arrayKeys_sublist (d : Dict) : (arrayKeys d).Sublist (keys d) := by
  induction d with
  | nil => simp [arrayKeys, keys]
  | cons kv rest ih =>
    cases kv with
    | mk k v =>
      cases v with
      | str s => exact List.Sublist.cons _ ih
      | arr fs => exact List.Sublist.cons₂ _ ih

theorem mem_arrayKeys (d : Dict) (k : String) (h : (keys d).Nodup) :
    k ∈ arrayKeys d ↔ ∃ fs, objGet d k = some (Value.arr fs) := by
  induction d with
  | nil => simp [arrayKeys, objGet]
  | cons kv rest ih =>
    simp only [keys, List.map_cons, List.nodup_cons] at h
    by_cases hk : kv.1 = k
    · subst hk
      have hnotin : kv.1 ∉ arrayKeys rest :=
        fun hc => h.1 ((arrayKeys_sublist rest).mem hc)
      cases kv with
      | mk k v =>
        cases v with
        | str s => simp_all [arrayKeys, objGet]
        | arr fs => simp [arrayKeys, objGet]
    · cases kv with
      | mk k2 v =>
        simp only at hk
        cases v with
        | str s => simp [arrayKeys, objGet, hk, ih h.2]
        | arr fs =>
          simp [arrayKeys, objGet, hk, ih h.2]
          intro hc
          exact absurd hc.symm hk

theorem mergeLocalizations_objGet (base extend_ : Dict) (k : String)
    (hext : (keys extend_).Nodup) :
    objGet (mergeLocalizations (some base) extend_).1 k =
      match objGet extend_ k with
      | some v => some v
      | none => objGet base k := by
  unfold mergeLocalizations
  exact foldl_mergeStep_fst extend_ (base, arrayKeys base) k hext

theorem mergeLocalizations_fromDefault (base extend_ : Dict) (k : String)
    (hb : (keys base).Nodup) :
    k ∈ (mergeLocalizations (some base) extend_).2 ↔
      (∃ fs, objGet base k = some (Value.arr fs)) ∧ objGet extend_ k = none := by
  unfold mergeLocalizations
  rw [foldl_mergeStep_snd extend_ (base, arrayKeys base) k
    ((arrayKeys_sublist base).nodup hb)]
  rw [mem_arrayKeys base k hb, objGet_eq_none_iff]

/-! Lemmas about locale normalization and the cache. -/

theorem asciiToLower_eq_self (c : Char) (h : 90 < c.toNat ∨ c.toNat < 65) :
    asciiToLower c = c := by
  unfold asciiToLower
  rw [if_neg]
  omega

theorem isValidLocale_shape (s : String) (h : isValidLocale s = true) :
    (∃ a b, s.data = [a, b] ∧ isLowerAZ a ∧ isLowerAZ b) ∨
    (∃ a b h3 c d, s.data = [a, b, h3, c, d] ∧ isLowerAZ a ∧ isLowerAZ b ∧
      h3.toNat = 45 ∧ isLowerAZ c ∧ isLowerAZ d) := by
  rcases s with ⟨l⟩
  rcases l with _ | ⟨a, _ | ⟨b, _ | ⟨h3, _ | ⟨c, _ | ⟨d, _ | rest⟩⟩⟩⟩⟩ <;>
    simp only [isValidLocale, Bool.and_eq_true, beq_iff_eq] at h <;>
    first
      | exact absurd h Bool.false_ne_true
      | exact Or.inl ⟨a, b, rfl, h.1, h.2⟩
      | exact Or.inr ⟨a, b, h3, c, d, rfl, h.1.1.1.1, h.1.1.1.2, h.1.1.2, h.1.2, h.2⟩

theorem isLowerAZ_toLower (c : Char) (h : isLowerAZ c) : asciiToLower c = c := by
  simp only [isLowerAZ, decide_eq_true_eq] at h
  exact asciiToLower_eq_self c (Or.inl (by omega))

theorem jsToLower_of_valid (s : String) (h : isValidLocale s = true) :
    jsToLower s = s := by
  rcases s with ⟨l⟩
  rcases isValidLocale_shape ⟨l⟩ h with ⟨a, b, hd, ha, hb⟩ |
    ⟨a, b, h3, c, d, hd, ha, hb, h45, hc2, hd2⟩ <;>
    replace hd : l = _ := hd <;> subst hd <;>
    simp only [jsToLower, List.map_cons, List.map_nil, isLowerAZ_toLower, *]
  rw [asciiToLower_eq_self h3 (Or.inr (by omega))]

theorem isValidLocale_ne_empty (s : String) (h : isValidLocale s = true) :
    s ≠ "" := by
  intro hc
  subst hc
  simp [isValidLocale] at h

theorem normalizeLocale_of_valid (dflt s : String) (h : isValidLocale s = true) :
    normalizeLocale dflt s = s := by
  unfold normalizeLocale
  rw [if_neg (isValidLocale_ne_empty s h), jsToLower_of_valid s h]

theorem load_cached (st : ProviderState) (L : String) (obj : LocaleObject)
    (hv : isValidLocale L = true) (hc : objGet st.cache L = some obj) :
    load st L = Except.ok obj := by
  unfold load
  rw [normalizeLocale_of_valid _ _ hv]
  simp [hv, hc]

theorem prepareCache_objGet (pmap : List (String × Expr)) (dflt : String)
    (locs : List (String × Dict)) (L : String) :
    objGet (prepareCache pmap dflt locs) L =
      (objGet locs L).map
        (mkLocaleObject pmap dflt (objGet locs dflt) (getPluralizationRule pmap dflt) L) := by
  unfold prepareCache
  exact objGet_map locs _ L

/-! Claim theorems. -/

/-- Claim C5: with the Russian rule attached to locale ru and APPLE mapped
to the plural-form array, pluralize at counts 1, 2 and 5 returns the first,
second and third form, the integer evaluation of the rule expression
selecting indices 0, 1 and 2 respectively. -/
theorem c5_russian_pluralization :
    toNumber (evalExpr russianRule 1) = 0 ∧
    toNumber (evalExpr russianRule 2) = 1 ∧
    toNumber (evalExpr russianRule 5) = 2 ∧
    pluralize c5State "ru" "APPLE" 1 = Except.ok "яблоко" ∧
    pluralize c5State "ru" "APPLE" 2 = Except.ok "яблока" ∧
    pluralize c5State "ru" "APPLE" 5 = Except.ok "яблок" := by
  decide

/-- Claim C7 counterexample: on the never-initialized state, load of the
syntactically valid locale en succeeds with the empty object instead of
failing with a not-yet-initialized condition. -/
theorem c7_counterexample :
    isValidLocale "en" = true ∧
    load c7UninitState "en" = Except.ok emptyLocaleObject := by
  decide

/-- Claim C7 amended: before the first successful rebuild the cache is
empty and load, for every syntactically valid locale, silently succeeds
with the empty object; no distinct not-initialized failure exists. -/
theorem c7_amended (dflt : String) (ph : Bool) (locale : String)
    (h : isValidLocale locale = true) :
    load ⟨[], dflt, ph⟩ locale = Except.ok emptyLocaleObject := by
  unfold load
  rw [normalizeLocale_of_valid _ _ h]
  simp only [h, objGet]
  split
  · simp_all
  · split <;> rfl

/-- Witness for the amended claim C7 at the locale fr. -/
theorem c7_amended_witness :
    isValidLocale "fr" = true ∧
    load ⟨[], "en", true⟩ "fr" = Except.ok emptyLocaleObject :=
  ⟨by decide, c7_amended "en" true "fr" (by decide)⟩

/-- Claim C1 counterexample: rebuilding the committed state with an input
lacking the default locale emits the fatal error, yet the dictionary served
for ru observably changes; the prior state is not left in place. -/
theorem c1_counterexample :
    (initStep [] c1NewInput c1Before).2 = false ∧
    load (initStep [] c1NewInput c1Before).1 "ru" ≠ load c1Before "ru" := by
  decide

/-- Claim C1 amended: when the freshly combined input has no default-locale
dictionary, the rebuild reports the fatal error, but the new default-less
cache has already been committed: the state after the failed rebuild is
fully determined by the new input and the configuration, so the previously
committed dictionaries are discarded, not preserved. -/
theorem c1_amended (pmap : List (String × Expr)) (locs : List (String × Dict))
    (st st2 : ProviderState)
    (hd : st2.defaultLocale = st.defaultLocale) (hp : st2.placeholder = st.placeholder)
    (h : objGet locs st.defaultLocale = none) :
    (initStep pmap locs st).2 = false ∧
    (initStep pmap locs st).1 = (initStep pmap locs st2).1 := by
  constructor
  · simp only [initStep]
    rw [prepareCache_objGet, h]
    rfl
  · cases st with
    | mk c1 d1 p1 =>
      cases st2 with
      | mk c2 d2 p2 =>
        simp only at hd hp
        simp [initStep, hd, hp]

/-- Witness for the amended claim C1: two prior states with the same
configuration but different committed caches end up in the same state
after the failing rebuild. -/
theorem c1_amended_witness :
    objGet c1NewInput "ru" = none ∧
    ((initStep [] c1NewInput c1Before).2 = false ∧
      (initStep [] c1NewInput c1Before).1 = (initStep [] c1NewInput ⟨[], "ru", false⟩).1) :=
  ⟨by decide, c1_amended [] c1NewInput c1Before ⟨[], "ru", false⟩ rfl rfl (by decide)⟩

theorem load_isOk_of_validNorm (st : ProviderState) (locale : String)
    (h : isValidLocale (normalizeLocale st.defaultLocale locale) = true) :
    (load st locale).isOk = true := by
  unfold load
  simp only [h]
  split
  · simp_all
  · split
    · rfl
    · split
      · split <;> rfl
      · rfl

/-- Claim C6: load raises the invalid-locale error exactly when the input,
after empty-input substitution and lowercasing, fails the grammar of two
lowercase letters with an optional dash and two more, and it never fails
for a syntactically valid locale string, whatever the cache holds. -/
theorem c6_invalid_locale_exactness (st : ProviderState) (locale : String) :
    (load st locale = Except.error JsError.invalidLocaleName ↔
      isValidLocale (normalizeLocale st.defaultLocale locale) = false) ∧
    (isValidLocale locale = true → (load st locale).isOk = true) := by
  constructor
  · constructor
    · intro herr
      cases hv : isValidLocale (normalizeLocale st.defaultLocale locale) with
      | false => rfl
      | true =>
        have hok := load_isOk_of_validNorm st locale hv
        rw [herr] at hok
        exact absurd hok (by simp [Except.isOk, Except.toBool])
    · intro hv
      unfold load
      simp [hv]
  · intro hv
    exact load_isOk_of_validNorm st locale
      (by rw [normalizeLocale_of_valid _ _ hv]; exact hv)

/-- Witness for claim C6: on the uninitialized state the valid locale en
loads without an error, and the malformed name english is rejected. -/
theorem c6_witness :
    (isValidLocale "en" = true ∧ (load ⟨[], "ru", false⟩ "en").isOk = true) ∧
    (load ⟨[], "ru", false⟩ "english" = Except.error JsError.invalidLocaleName ↔
      isValidLocale (normalizeLocale "ru" "english") = false) :=
  ⟨⟨by decide, (c6_invalid_locale_exactness ⟨[], "ru", false⟩ "en").2 (by decide)⟩,
    (c6_invalid_locale_exactness ⟨[], "ru", false⟩ "english").1⟩

/-- Claim C4: resolution first replaces an empty argument by the default
locale, lowercases, then serves the exact locale from the committed cache,
else the primary-subtag entry (only possible when the name has a region
part), else the committed default-locale dictionary. -/
theorem c4_resolution_order (st : ProviderState) (locale : String) :
    (load st "" = load st st.defaultLocale) ∧
    (∀ obj, isValidLocale (normalizeLocale st.defaultLocale locale) = true →
        objGet st.cache (normalizeLocale st.defaultLocale locale) = some obj →
        load st locale = Except.ok obj) ∧
    (∀ obj, isValidLocale (normalizeLocale st.defaultLocale locale) = true →
        objGet st.cache (normalizeLocale st.defaultLocale locale) = none →
        objGet st.cache (firstLocaleComponent (normalizeLocale st.defaultLocale locale)) =
          some obj →
        load st locale = Except.ok obj) ∧
    (∀ objD, isValidLocale (normalizeLocale st.defaultLocale locale) = true →
        objGet st.cache (normalizeLocale st.defaultLocale locale) = none →
        objGet st.cache (firstLocaleComponent (normalizeLocale st.defaultLocale locale)) =
          none →
        objGet st.cache st.defaultLocale = some objD →
        load st locale = Except.ok objD) := by
  refine ⟨?_, ?_, ?_, ?_⟩
  · have hnorm : normalizeLocale st.defaultLocale "" =
        normalizeLocale st.defaultLocale st.defaultLocale := by
      unfold normalizeLocale
      simp [ite_self]
    unfold load
    rw [hnorm]
  · intro obj hv hc
    unfold load
    simp [hv, hc]
  · intro obj hv hc hf
    have hne : firstLocaleComponent (normalizeLocale st.defaultLocale locale) ≠
        normalizeLocale st.defaultLocale locale := by
      intro he
      rw [he, hc] at hf
      cases hf
    unfold load
    simp [hv, hc, hne, hf]
  · intro objD hv hc hf
    intro hdflt
    unfold load
    simp only [hv, hc, hf, hdflt]
    split
    · simp_all
    · split <;> simp [hf, hdflt]

/-- Witness for claim C4: en-gb resolves through the primary subtag to the
same dictionary as en, and fr falls back to the default ru dictionary. -/
theorem c4_witness :
    (load c4State "en-gb" = Except.ok c4EnObject ∧
      load c4State "en" = Except.ok c4EnObject) ∧
    load c4State "fr" = Except.ok c4RuObject :=
  ⟨⟨(c4_resolution_order c4State "en-gb").2.2.1 c4EnObject
        (by decide) (by decide) (by decide),
      (c4_resolution_order c4State "en").2.1 c4EnObject (by decide) (by decide)⟩,
    (c4_resolution_order c4State "fr").2.2.2 c4RuObject
      (by decide) (by decide) (by decide) (by decide)⟩

/-- Claim C2: in a state committed by a rebuild, a key absent from the own
combined dictionary of a non-default locale but present in the default
combined dictionary appears in the merged dictionary of that locale with
the default value verbatim, and get agrees between the two locales. -/
theorem c2_default_inheritance (pmap : List (String × Expr))
    (locs : List (String × Dict)) (dflt L K : String) (ph : Bool)
    (D C : Dict) (v : Value)
    (hvd : isValidLocale dflt = true) (hvL : isValidLocale L = true)
    (hLd : L ≠ dflt)
    (hD : objGet locs dflt = some D) (hC : objGet locs L = some C)
    (hCnd : (keys C).Nodup)
    (hK : objGet D K = some v) (hKC : objGet C K = none) :
    (∃ obj, load ⟨prepareCache pmap dflt locs, dflt, ph⟩ L = Except.ok obj ∧
      objGet obj.entries K = some v) ∧
    get ⟨prepareCache pmap dflt locs, dflt, ph⟩ L K =
      get ⟨prepareCache pmap dflt locs, dflt, ph⟩ dflt K := by
  have hcacheL : objGet (prepareCache pmap dflt locs) L =
      some (mkLocaleObject pmap dflt (objGet locs dflt)
        (getPluralizationRule pmap dflt) L C) := by
    rw [prepareCache_objGet, hC]
    rfl
  have hcacheD : objGet (prepareCache pmap dflt locs) dflt =
      some (mkLocaleObject pmap dflt (objGet locs dflt)
        (getPluralizationRule pmap dflt) dflt D) := by
    rw [prepareCache_objGet, hD]
    rfl
  have hentriesL : (mkLocaleObject pmap dflt (objGet locs dflt)
      (getPluralizationRule pmap dflt) L C).entries =
      (mergeLocalizations (some D) C).1 := by
    rw [hD]
    simp [mkLocaleObject, hLd]
  have hentriesD : (mkLocaleObject pmap dflt (objGet locs dflt)
      (getPluralizationRule pmap dflt) dflt D).entries = D := by
    simp [mkLocaleObject]
  have hmergedK : objGet (mergeLocalizations (some D) C).1 K = some v := by
    rw [mergeLocalizations_objGet D C K hCnd, hKC, hK]
  have hloadL := load_cached ⟨prepareCache pmap dflt locs, dflt, ph⟩ L _ hvL hcacheL
  have hloadD := load_cached ⟨prepareCache pmap dflt locs, dflt, ph⟩ dflt _ hvd hcacheD
  constructor
  · exact ⟨_, hloadL, by rw [hentriesL]; exact hmergedK⟩
  · unfold get
    rw [hloadL, hloadD]
    simp only [Except.map, hentriesL, hentriesD, hmergedK, hK]

/-- Witness for claim C2 at the key THIRD inherited by en from ru. -/
theorem c2_witness :
    (∃ obj, load ⟨prepareCache [] "ru" c2Locs, "ru", false⟩ "en" = Except.ok obj ∧
        objGet obj.entries "THIRD" = some (Value.str "ru third")) ∧
      get ⟨prepareCache [] "ru" c2Locs, "ru", false⟩ "en" "THIRD" =
        get ⟨prepareCache [] "ru" c2Locs, "ru", false⟩ "ru" "THIRD" :=
  c2_default_inheritance [] c2Locs "ru" "en" "THIRD" false
    [("THIRD", Value.str "ru third")] [("FIRST", Value.str "en first")]
    (Value.str "ru third")
    (by decide) (by decide) (by decide) (by decide) (by decide) (by decide)
    (by decide) (by decide)

/-- Claim C3: in a committed state, pluralizing a non-default locale on a
key whose plural-form array is inherited from the default locale evaluates
the default-locale rule, while a key defined by the own sources of the
locale evaluates the rule of that locale. -/
theorem c3_inherited_rule (pmap : List (String × Expr))
    (locs : List (String × Dict)) (dflt L K : String) (n : Int) (ph : Bool)
    (D C : Dict)
    (hvL : isValidLocale L = true) (hLd : L ≠ dflt)
    (hD : objGet locs dflt = some D) (hC : objGet locs L = some C)
    (hDnd : (keys D).Nodup) (hCnd : (keys C).Nodup) :
    (∀ A, objGet D K = some (Value.arr A) → objGet C K = none →
      pluralize ⟨prepareCache pmap dflt locs, dflt, ph⟩ L K n =
        Except.ok
          (if selectForm A (ruleIndex (some (getPluralizationRule pmap dflt)) n) =
              "undefined"
            then notFound ph K
            else selectForm A (ruleIndex (some (getPluralizationRule pmap dflt)) n))) ∧
    (∀ B, objGet C K = some (Value.arr B) →
      pluralize ⟨prepareCache pmap dflt locs, dflt, ph⟩ L K n =
        Except.ok
          (if selectForm B (ruleIndex (some (getPluralizationRule pmap L)) n) =
              "undefined"
            then notFound ph K
            else selectForm B (ruleIndex (some (getPluralizationRule pmap L)) n))) := by
  have hcacheL : objGet (prepareCache pmap dflt locs) L =
      some ⟨(mergeLocalizations (some D) C).1,
        some ⟨getPluralizationRule pmap L, some (getPluralizationRule pmap dflt),
          some (mergeLocalizations (some D) C).2⟩⟩ := by
    rw [prepareCache_objGet, hC]
    simp [mkLocaleObject, hLd, hD]
  have hload := load_cached ⟨prepareCache pmap dflt locs, dflt, ph⟩ L _ hvL hcacheL
  constructor
  · intro A hK hKC
    have hforms : objGet (mergeLocalizations (some D) C).1 K = some (Value.arr A) := by
      rw [mergeLocalizations_objGet D C K hCnd, hKC, hK]
    have hmem : K ∈ (mergeLocalizations (some D) C).2 :=
      (mergeLocalizations_fromDefault D C K hDnd).2 ⟨⟨A, hK⟩, hKC⟩
    unfold pluralize
    rw [hload]
    simp [hforms, isFalsyValue, chosenRule, hmem]
  · intro B hKC2
    have hforms : objGet (mergeLocalizations (some D) C).1 K = some (Value.arr B) := by
      rw [mergeLocalizations_objGet D C K hCnd, hKC2]
    have hnotmem : K ∉ (mergeLocalizations (some D) C).2 := by
      rw [mergeLocalizations_fromDefault D C K hDnd]
      intro hcontra
      rw [hKC2] at hcontra
      cases hcontra.2
    unfold pluralize
    rw [hload]
    simp [hforms, isFalsyValue, chosenRule, hnotmem]

/-- Witness for claim C3: en pluralizes the inherited key APPLE with the
Russian default rule (count 2 selects index 1) and its own key DAY with
the English rule (count 2 selects index 1). -/
theorem c3_witness :
    pluralize ⟨prepareCache c3Pmap "ru" c3Locs, "ru", false⟩ "en" "APPLE" 2 =
      Except.ok "яблока" ∧
    pluralize ⟨prepareCache c3Pmap "ru" c3Locs, "ru", false⟩ "en" "DAY" 2 =
      Except.ok "days" := by
  have h := c3_inherited_rule c3Pmap c3Locs "ru" "en" "APPLE" 2 false
    [("APPLE", Value.arr ["яблоко", "яблока", "яблок"]),
     ("DAY", Value.arr ["день", "дня", "дней"])]
    [("DAY", Value.arr ["day", "days"])]
    (by decide) (by decide) (by decide) (by decide) (by decide) (by decide)
  have h2 := c3_inherited_rule c3Pmap c3Locs "ru" "en" "DAY" 2 false
    [("APPLE", Value.arr ["яблоко", "яблока", "яблок"]),
     ("DAY", Value.arr ["день", "дня", "дней"])]
    [("DAY", Value.arr ["day", "days"])]
    (by decide) (by decide) (by decide) (by decide) (by decide) (by decide)
  refine ⟨?_, ?_⟩
  · rw [h.1 ["яблоко", "яблока", "яблок"] (by decide) (by decide)]
    decide
  · rw [h2.2 ["day", "days"] (by decide)]
    decide

/-- Claim C8: a missing key and an out-of-range plural selection both
degrade, without an exception, to the configured missing-value policy: the
empty string with the placeholder flag off and the literal key with it on,
for get and for pluralize alike. -/
theorem c8_missing_policy (st : ProviderState) (locale key : String) (n : Int) :
    (∀ obj, load st locale = Except.ok obj → objGet obj.entries key = none →
      get st locale key = Except.ok (notFound st.placeholder key) ∧
      pluralize st locale key n = Except.ok (notFound st.placeholder key)) ∧
    (∀ obj fs p, load st locale = Except.ok obj →
      objGet obj.entries key = some (Value.arr fs) →
      obj.pluralization = some p →
      (ruleIndex (chosenRule p key) n < 0 ∨
          fs.length ≤ (ruleIndex (chosenRule p key) n).toNat) →
      pluralize st locale key n = Except.ok (notFound st.placeholder key)) := by
  constructor
  · intro obj hload hnone
    constructor
    · unfold get
      rw [hload]
      simp [Except.map, hnone, jsStringOr]
    · unfold pluralize
      rw [hload]
      simp only [hnone, isFalsyValue, Bool.true_and]
      cases hph : st.placeholder with
      | true => simp [notFound, hph]
      | false => simp [notFound, hph, jsStringOr]
  · intro obj fs p hload hforms hp hout
    have hsel : selectForm fs (ruleIndex (chosenRule p key) n) = "undefined" := by
      unfold selectForm
      rcases hout with hneg | hlen
      · rw [if_neg]
        omega
      · by_cases h0 : (0 : Int) ≤ ruleIndex (chosenRule p key) n
        · rw [if_pos h0]
          have : fs[(ruleIndex (chosenRule p key) n).toNat]? = none :=
            getElem?_neg fs _ (by omega)
          rw [this]
        · rw [if_neg h0]
    unfold pluralize
    rw [hload]
    simp [hforms, isFalsyValue, hp, hsel]

/-- Witness for claim C8: the literal scenario, get of MISSING_KEY on the
locale en-us returning the empty string with the flag off and the key with
it on, and an out-of-range selection at count 5 over two forms degrading
to the same policy. -/
theorem c8_witness :
    (get c8StateOff "en-us" "MISSING_KEY" = Except.ok "" ∧
      pluralize c8StateOff "en-us" "MISSING_KEY" 5 = Except.ok "") ∧
    (get c8StateOn "en-us" "MISSING_KEY" = Except.ok "MISSING_KEY" ∧
      pluralize c8StateOn "en-us" "MISSING_KEY" 5 = Except.ok "MISSING_KEY") ∧
    pluralize c8StateOff "en" "FORMS2" 5 = Except.ok "" ∧
    pluralize c8StateOn "en" "FORMS2" 5 = Except.ok "FORMS2" :=
  ⟨(c8_missing_policy c8StateOff "en-us" "MISSING_KEY" 5).1 c8EnObject
      (by decide) (by decide),
    (c8_missing_policy c8StateOn "en-us" "MISSING_KEY" 5).1 c8EnObject
      (by decide) (by decide),
    (c8_missing_policy c8StateOff "en" "FORMS2" 5).2 c8EnObject
      ["form one", "form two"] ⟨Expr.var, none, none⟩
      (by decide) (by decide) (by decide) (by decide),
    (c8_missing_policy c8StateOn "en" "FORMS2" 5).2 c8EnObject
      ["form one", "form two"] ⟨Expr.var, none, none⟩
      (by decide) (by decide) (by decide) (by decide)⟩

/-- Claim C10: on a plural-form array, pluralize returns the missing-value
policy exactly when the stringified selection is the text undefined, which
covers both an out-of-range index and a form whose text is literally
undefined; otherwise it returns the selected form itself. -/
theorem c10_undefined_sentinel (st : ProviderState) (locale key : String) (n : Int) :
    ∀ obj fs p, load st locale = Except.ok obj →
      objGet obj.entries key = some (Value.arr fs) →
      obj.pluralization = some p →
      (selectForm fs (ruleIndex (chosenRule p key) n) = "undefined" →
        pluralize st locale key n = Except.ok (notFound st.placeholder key)) ∧
      (selectForm fs (ruleIndex (chosenRule p key) n) ≠ "undefined" →
        pluralize st locale key n =
          Except.ok (selectForm fs (ruleIndex (chosenRule p key) n))) := by
  intro obj fs p hload hforms hp
  constructor
  · intro hsel
    unfold pluralize
    rw [hload]
    simp [hforms, isFalsyValue, hp, hsel]
  · intro hsel
    unfold pluralize
    rw [hload]
    simp [hforms, isFalsyValue, hp, hsel]

/-- Witness for claim C10: a stored form whose text is literally undefined
is reported through the policy (the key, with the flag on), and a normal
selection is returned verbatim. -/
theorem c10_witness :
    pluralize c8StateOn "en" "UNDEF" 0 = Except.ok "UNDEF" ∧
    pluralize c8StateOn "en" "FORMS2" 1 = Except.ok "form two" :=
  ⟨((c10_undefined_sentinel c8StateOn "en" "UNDEF" 0) c8EnObject
      ["undefined"] ⟨Expr.var, none, none⟩
      (by decide) (by decide) (by decide)).1 (by decide),
    ((c10_undefined_sentinel c8StateOn "en" "FORMS2" 1) c8EnObject
      ["form one", "form two"] ⟨Expr.var, none, none⟩
      (by decide) (by decide) (by decide)).2 (by decide)⟩

/-- Claim C9 counterexample: with the placeholder flag on, pluralizing the
key A, whose selected plural form is the empty string, returns that empty
string verbatim instead of the literal key the claim predicts. -/
theorem c9_counterexample :
    pluralize c9State "en" "A" 7 = Except.ok "" ∧
    Except.ok "" ≠ (Except.ok "A" : Except JsError String) := by
  decide

/-- Claim C9 amended: a key stored as the empty string follows the
missing-value policy in get and pluralize, and get also applies the policy
when the first element of a plural-form array is empty, so such keys are
indistinguishable from absent ones there; but pluralize returns the
selected element of a plural-form array verbatim even when it is the empty
string, so with the placeholder flag on an empty selected form yields the
empty string and not the literal key. -/
theorem c9_amended (st : ProviderState) (locale key : String) (n : Int) :
    (∀ obj, load st locale = Except.ok obj →
      objGet obj.entries key = some (Value.str "") →
      get st locale key = Except.ok (notFound st.placeholder key) ∧
      pluralize st locale key n = Except.ok (notFound st.placeholder key)) ∧
    (∀ obj fs, load st locale = Except.ok obj →
      objGet obj.entries key = some (Value.arr fs) → fs.head? = some "" →
      get st locale key = Except.ok (notFound st.placeholder key)) ∧
    (∀ obj fs p, load st locale = Except.ok obj →
      objGet obj.entries key = some (Value.arr fs) →
      obj.pluralization = some p →
      selectForm fs (ruleIndex (chosenRule p key) n) = "" →
      pluralize st locale key n = Except.ok "") := by
  refine ⟨?_, ?_, ?_⟩
  · intro obj hload hempty
    constructor
    · unfold get
      rw [hload]
      simp [Except.map, hempty, jsStringOr]
    · unfold pluralize
      rw [hload]
      simp only [hempty, isFalsyValue]
      cases hph : st.placeholder with
      | true => simp [notFound, hph]
      | false => simp [notFound, hph, jsStringOr]
  · intro obj fs hload hforms hhead
    unfold get
    rw [hload]
    simp [Except.map, hforms, hhead, jsStringOr]
  · intro obj fs p hload hforms hp hsel
    unfold pluralize
    rw [hload]
    simp [hforms, isFalsyValue, hp, hsel]

/-- Witness for the amended claim C9: in the counterexample state, get of
the key A returns the key by the policy while pluralize returns the empty
selected form verbatim. -/
theorem c9_amended_witness :
    get c9State "en" "A" = Except.ok (notFound true "A") ∧
    pluralize c9State "en" "A" 7 = Except.ok "" :=
  ⟨(c9_amended c9State "en" "A" 7).2.1
      ⟨[("A", Value.arr [""])], some ⟨Expr.num 0, none, none⟩⟩ [""]
      (by decide) (by decide) (by decide),
    (c9_amended c9State "en" "A" 7).2.2
      ⟨[("A", Value.arr [""])], some ⟨Expr.num 0, none, none⟩⟩ [""]
      ⟨Expr.num 0, none, none⟩
      (by decide) (by decide) (by decide) (by decide)⟩


end CatberryL10n
